import Mathlib

/-!
Shallow embedding of the crane-game prize inventory application
(src/App.tsx and src/components/PrizeFormModal.tsx) and proofs about its
inventory state, persistence lifecycle, import/export, query/statistics and
form logic.

Modelling conventions:
* JavaScript strings are Lean `String`, JavaScript numbers holding integral
  quantities are `Int`; image dimensions (which are scaled by division) are
  `ℚ`, modelling the arithmetic exactly.
* The platform JSON layer (JSON.stringify / JSON.parse) is modelled at the
  level of JSON trees: a `Json` value stands for the parsed form of the
  serialized text, stringify and parse being mutually inverse between trees
  and well-formed text.  A JSON.parse failure is `Except.error`.
* Browser interactions (confirm dialogs, the quota outcome of
  localStorage.setItem, the decode outcome of an Image element) enter the
  model as explicit parameters of the handlers that consult them.
-/

/-- A JSON value, the parsed form of a JSON document. -/
inductive Json where
  | null : Json
  | bool (b : Bool) : Json
  | num (n : Int) : Json
  | str (s : String) : Json
  | arr (elems : List Json) : Json
  | obj (fields : List (String × Json)) : Json

/-- One prize record, the shape produced by handleSubmit in
PrizeFormModal.tsx and consumed throughout App.tsx. -/
structure Prize where
  id : String
  name : String
  quantity : Int
  acquisitionDate : String
  category : String
  manufacturer : String
  photo : String
  notes : String
deriving Repr, DecidableEq

/-- The sortOrder state of App.tsx. -/
inductive SortOrder where
  | dateDesc : SortOrder
  | nameAsc : SortOrder
  | nameDesc : SortOrder
deriving Repr, DecidableEq

/-- The saveStatus state of App.tsx. -/
inductive SaveStatus where
  | idle : SaveStatus
  | saving : SaveStatus
  | saved : SaveStatus
deriving Repr, DecidableEq

/-- The persistent-state slice of App.tsx: the prizes array, the dirty flag,
the save status, and the localStorage slot keyed by the string
crane-game-prizes (modelled as the collection it holds, if any). -/
structure AppState where
  prizes : List Prize
  isDirty : Bool
  saveStatus : SaveStatus
  storage : Option (List Prize)
deriving Repr, DecidableEq

/-- The collection update performed by handleSavePrize (App.tsx lines
116-129): findIndex on id; if found, copy the array and overwrite that
index, otherwise append at the end.  List.findIdx returns the length when
nothing matches, mirroring findIndex returning -1. -/
def upsert (prevPrizes : List Prize) (prize : Prize) : List Prize :=
  let existingIndex := prevPrizes.findIdx (fun p => p.id == prize.id)
  if existingIndex < prevPrizes.length then prevPrizes.set existingIndex prize
  else prevPrizes ++ [prize]

/-- The collection update performed by handleDeletePrize (App.tsx lines
131-139): filter out every record whose id equals the argument. -/
def deleteById (prevPrizes : List Prize) (prizeId : String) : List Prize :=
  prevPrizes.filter (fun p => p.id != prizeId)

/-- The collection update performed by handleQuantityChange (App.tsx lines
141-149): map over the array, replacing the quantity field of the record
whose id matches and spreading every other field unchanged. -/
def setQuantity (prevPrizes : List Prize) (prizeId : String) (newQuantity : Int) :
    List Prize :=
  prevPrizes.map (fun p =>
    if p.id == prizeId then { p with quantity := newQuantity } else p)

/-- JavaScript object key read: acc[k], on the association-list model of a
plain object (keys in insertion order, unique). -/
def getKey : List (String × Int) → String → Option Int
  | [], _ => none
  | e :: acc, k => if e.1 == k then some e.2 else getKey acc k

/-- JavaScript object key write: acc[k] = v; overwrites in place if the key
exists, otherwise appends the key at the end. -/
def setKey : List (String × Int) → String → Int → List (String × Int)
  | [], k, v => [(k, v)]
  | e :: acc, k, v => if e.1 == k then (k, v) :: acc else e :: setKey acc k v

/-- The result shape of the stats useMemo (App.tsx lines 151-159). -/
structure Stats where
  totalTypes : Nat
  totalQuantity : Int
  categoryCount : List (String × Int)
deriving Repr, DecidableEq

/-- The stats useMemo (App.tsx lines 151-159): totalTypes is
prizes.length, totalQuantity reduces quantity with + from 0, and
categoryCount reduces acc[p.category] = (acc[p.category] || 0) + p.quantity
starting from the empty object.  On an Int the JavaScript truthiness test of
the || reads 0 for an absent key and for a stored 0, which is Option.getD 0
on the model. -/
def stats (prizes : List Prize) : Stats :=
  { totalTypes := prizes.length
    totalQuantity := prizes.foldl (fun sum p => sum + p.quantity) 0
    categoryCount := prizes.foldl
      (fun acc p => setKey acc p.category ((getKey acc p.category).getD 0 + p.quantity))
      [] }

/-- The rendering of one category chip (App.tsx line 309):
stats.categoryCount[cat] || 0, which displays 0 both for an absent key and
for a stored 0. -/
def displayedCategoryCount (st : Stats) (cat : String) : Int :=
  (getKey st.categoryCount cat).getD 0

/-- JSON.stringify of one prize record: an object whose fields appear in the
property order of the literal built by handleSubmit. -/
def jsonOfPrize (p : Prize) : Json :=
  Json.obj
    [ ("id", Json.str p.id)
    , ("name", Json.str p.name)
    , ("quantity", Json.num p.quantity)
    , ("acquisitionDate", Json.str p.acquisitionDate)
    , ("category", Json.str p.category)
    , ("manufacturer", Json.str p.manufacturer)
    , ("photo", Json.str p.photo)
    , ("notes", Json.str p.notes) ]

/-- Key lookup in a parsed JSON object. -/
def jsonField : List (String × Json) → String → Option Json
  | [], _ => none
  | e :: fs, k => if e.1 == k then some e.2 else jsonField fs k

/-- Reading a string field off a parsed JSON value, as later field accesses
on an imported record do; an absent or non-string field reads back as the
empty string (readers tolerate absence of optional fields, defaulting to
empty). -/
def getStrField (j : Json) (k : String) : String :=
  match j with
  | Json.obj fs =>
    match jsonField fs k with
    | some (Json.str s) => s
    | _ => ""
  | _ => ""

/-- Reading a numeric field off a parsed JSON value; absent or non-numeric
reads back as 0. -/
def getNumField (j : Json) (k : String) : Int :=
  match j with
  | Json.obj fs =>
    match jsonField fs k with
    | some (Json.num n) => n
    | _ => 0
  | _ => 0

/-- The prize record denoted by one element of an imported JSON array: the
element is stored as-is by setPrizes and all later reads access its named
fields. -/
def prizeOfJson (j : Json) : Prize :=
  { id := getStrField j ("id")
  , name := getStrField j ("name")
  , quantity := getNumField j ("quantity")
  , acquisitionDate := getStrField j ("acquisitionDate")
  , category := getStrField j ("category")
  , manufacturer := getStrField j ("manufacturer")
  , photo := getStrField j ("photo")
  , notes := getStrField j ("notes") }

/-- handleSavePrize (App.tsx lines 116-129): upsert the record and set the
dirty flag. -/
def handleSavePrize (s : AppState) (prize : Prize) : AppState :=
  { s with prizes := upsert s.prizes prize, isDirty := true }

/-- handleDeletePrize (App.tsx lines 131-139): behind a confirm dialog,
filter the record out and set the dirty flag; declining the dialog leaves
the state untouched. -/
def handleDeletePrize (s : AppState) (prizeId : String) (confirmed : Bool) :
    AppState :=
  if confirmed then
    { s with prizes := deleteById s.prizes prizeId, isDirty := true }
  else s

/-- handleQuantityChange (App.tsx lines 141-149): replace the quantity of
the matching record and set the dirty flag. -/
def handleQuantityChange (s : AppState) (prizeId : String) (newQuantity : Int) :
    AppState :=
  { s with prizes := setQuantity s.prizes prizeId newQuantity, isDirty := true }

/-- handleClearAll (App.tsx lines 108-114): behind a confirm dialog, replace
the collection by the empty one and set the dirty flag. -/
def handleClearAll (s : AppState) (confirmed : Bool) : AppState :=
  if confirmed then { s with prizes := [], isDirty := true } else s

/-- handleSaveToStorage (App.tsx lines 51-65), at completion of the deferred
write: on success the serialized collection is stored, the dirty flag is
cleared and the status shows saved; when localStorage.setItem throws (quota
exceeded) the catch block only alerts and resets the status, leaving the
dirty flag and the stored snapshot untouched. -/
def handleSaveToStorage (s : AppState) (quotaExceeded : Bool) : AppState :=
  if quotaExceeded then { s with saveStatus := SaveStatus.idle }
  else
    { s with storage := some s.prizes
           , isDirty := false
           , saveStatus := SaveStatus.saved }

/-- handleExport (App.tsx lines 68-78): the JSON document written to the
backup file is the stringification of the prizes array. -/
def handleExport (s : AppState) : Json :=
  Json.arr (s.prizes.map jsonOfPrize)

/-- handleImport (App.tsx lines 81-106): JSON.parse the file content (a
parse failure lands in the catch block, which only alerts); if the parsed
value is an array and the user confirms, the parsed records replace the
collection wholesale and the dirty flag is set; a non-array parse only
alerts.  In every non-applying branch the state is returned untouched. -/
def handleImport (s : AppState) (parsed : Except Unit Json) (confirmed : Bool) :
    AppState :=
  match parsed with
  | Except.error _ => s
  | Except.ok j =>
    match j with
    | Json.arr elems =>
      if confirmed then
        { s with prizes := elems.map prizeOfJson, isDirty := true }
      else s
    | _ => s

/-- JavaScript String.prototype.includes, on the character lists of the two
strings. -/
def strIncludes (s sub : String) : Bool :=
  decide (sub.data <:+: s.data)

/-- The filter stage of filteredAndSortedPrizes (App.tsx lines 162-167):
case-insensitive name containment and category equality (or the catch-all
category すべて). -/
def filterPrizes (prizes : List Prize) (searchTerm : String)
    (selectedCategory : String) : List Prize :=
  prizes.filter (fun prize =>
    strIncludes prize.name.toLower searchTerm.toLower &&
      (selectedCategory == "すべて" || prize.category == selectedCategory))

/-- Array.prototype.sort with a JavaScript comparator (negative: first
argument sorts earlier): a stable comparison sort, modelled by insertion
sort on the reflexive relation cmp a b ≤ 0. -/
def sortJS {α : Type} (cmp : α → α → Int) (l : List α) : List α :=
  List.insertionSort (fun a b => cmp a b ≤ 0) l

/-- filteredAndSortedPrizes (App.tsx lines 161-178).  The two platform
comparisons are parameters: localeCompare with the ja locale enters as the
comparator localeCmp, and new Date(d).getTime() as dateMs. -/
def filteredAndSortedPrizes (localeCmp : String → String → Int)
    (dateMs : String → Int) (prizes : List Prize) (searchTerm : String)
    (selectedCategory : String) (sortOrder : SortOrder) : List Prize :=
  let filtered := filterPrizes prizes searchTerm selectedCategory
  match sortOrder with
  | SortOrder.nameAsc => sortJS (fun a b => localeCmp a.name b.name) filtered
  | SortOrder.nameDesc => sortJS (fun a b => localeCmp b.name a.name) filtered
  | SortOrder.dateDesc =>
    sortJS (fun a b => dateMs b.acquisitionDate - dateMs a.acquisitionDate) filtered

/-- The form state slice of PrizeFormModal.tsx. -/
structure FormState where
  name : String
  quantity : Int
  acquisitionDate : String
  photo : String
  isProcessingImage : Bool
  notes : String
  category : String
  manufacturer : String
deriving Repr, DecidableEq

/-- JavaScript x || d on a string (the empty string is the falsy string). -/
def jsOrS (s d : String) : String :=
  if s = "" then d else s

/-- JavaScript x || d on an integral number (0 is falsy). -/
def jsOrI (n d : Int) : Int :=
  if n = 0 then d else n

/-- The initialization useEffect of PrizeFormModal.tsx (lines 28-38), run
when the modal opens: every field is seeded from prizeToEdit through ||,
so a falsy stored value is replaced by the default (quantity 1, today for
the acquisition date, その他 for the category, 指定なし for the
manufacturer); without a prizeToEdit the ?. reads are undefined and every
default applies. -/
def initFormState (prizeToEdit : Option Prize) (today : String) : FormState :=
  match prizeToEdit with
  | some p =>
    { name := jsOrS p.name ("")
    , quantity := jsOrI p.quantity 1
    , acquisitionDate := jsOrS p.acquisitionDate today
    , photo := jsOrS p.photo ("")
    , isProcessingImage := false
    , notes := jsOrS p.notes ("")
    , category := jsOrS p.category ("その他")
    , manufacturer := jsOrS p.manufacturer ("指定なし") }
  | none =>
    { name := ""
    , quantity := 1
    , acquisitionDate := today
    , photo := ""
    , isProcessingImage := false
    , notes := ""
    , category := "その他"
    , manufacturer := "指定なし" }

/-- The width/height variables computed by resizeImage (PrizeFormModal.tsx
lines 46-62): the branch on width > height, then the cap of the longer side
at 600 with proportional scaling of the other.  The source computes in
JavaScript float64; the model uses exact rationals, so float rounding (on
the order of one ulp on the scaled side) is not represented.  The truncating
assignment of these values to the canvas is canvasDims. -/
def resizeDims (width height : ℚ) : ℚ × ℚ :=
  if width > height then
    if width > 600 then (600, height * (600 / width)) else (width, height)
  else
    if height > 600 then (width * (600 / height), 600)
    else (width, height)

/-- The canvas.width and canvas.height assignment (PrizeFormModal.tsx lines
64-65): the unsigned long canvas attributes truncate the computed, possibly
fractional, dimension to an integer; on the nonnegative dimensions arising
here truncation toward zero is the floor. -/
def canvasDims (width height : ℚ) : ℤ × ℤ :=
  (Int.floor (resizeDims width height).1, Int.floor (resizeDims width height).2)

/-- Outcome of the browser loading the Image element from the data URL:
onload fires with the pixel dimensions, or the load fails and onload never
fires (the code installs no onerror handler). -/
inductive DecodeOutcome where
  | loaded (width height : ℚ) : DecodeOutcome
  | failed : DecodeOutcome

/-- resizeImage (PrizeFormModal.tsx lines 41-74): the promise resolves with
the re-encoded canvas (toDataURL at JPEG quality 0.7, abstracted as the
encode parameter applied to the computed target dimensions) only from the
onload callback; nothing ever rejects or resolves the promise otherwise, so
a failed decode leaves it pending forever, modelled as none. -/
def resizeImage (encode : ℚ → ℚ → String) (outcome : DecodeOutcome) :
    Option String :=
  match outcome with
  | DecodeOutcome.loaded w h =>
    some (encode (resizeDims w h).1 (resizeDims w h).2)
  | DecodeOutcome.failed => none

/-- handlePhotoChange (PrizeFormModal.tsx lines 94-114) from the point the
FileReader delivers base64: isProcessingImage is set, then the handler
awaits resizeImage.  If that promise resolves, the photo is set to the
compressed result and the finally clause clears isProcessingImage; the
catch fallback to the original base64 is unreachable because the promise
never rejects, and when the promise never settles the await never resumes,
so neither catch nor finally runs and the state keeps the processing flag. -/
def handlePhotoChange (s : FormState) (encode : ℚ → ℚ → String)
    (base64 : String) (outcome : DecodeOutcome) : FormState :=
  let s1 := { s with isProcessingImage := true }
  match resizeImage encode outcome with
  | some compressed => { s1 with photo := compressed, isProcessingImage := false }
  | none => s1

/-- handleSubmit (PrizeFormModal.tsx lines 76-92): an empty trimmed name or
an in-flight image compression aborts; otherwise the record is assembled
from the form state, keeping the id of the edited record when it is truthy and
otherwise minting a fresh one (Date.now().toString(), passed in as newId). -/
def handleSubmit (s : FormState) (prizeToEdit : Option Prize) (newId : String) :
    Option Prize :=
  if s.name.trim = "" ∨ s.isProcessingImage then none
  else
    some
      { id := jsOrS ((prizeToEdit.map Prize.id).getD ("")) newId
      , name := s.name
      , quantity := s.quantity
      , acquisitionDate := s.acquisitionDate
      , category := s.category
      , manufacturer := s.manufacturer
      , photo := s.photo
      , notes := s.notes }

/-- Fixture record used by concrete witnesses. -/
def prizeA : Prize :=
  { id := "1", name := "A", quantity := 2, acquisitionDate := "2024-01-01"
  , category := "マスコット", manufacturer := "指定なし", photo := ""
  , notes := "" }

/-- Fixture record used by concrete witnesses, id distinct from prizeA. -/
def prizeB : Prize :=
  { id := "2", name := "BB", quantity := 3, acquisitionDate := "2024-02-01"
  , category := "ぬいぐるみ", manufacturer := "タイトー", photo := ""
  , notes := "x" }

/-- Fixture record sharing its id with prizeA but differing elsewhere. -/
def prizeA2 : Prize :=
  { id := "1", name := "A2", quantity := 9, acquisitionDate := "2024-03-05"
  , category := "フィギュア", manufacturer := "SEGA FAVE", photo := "p"
  , notes := "y" }

/-- Fixture initial application state used by concrete witnesses. -/
def state0 : AppState :=
  { prizes := [], isDirty := false, saveStatus := SaveStatus.idle
  , storage := none }

/-- Fixture record with quantity 0, used by the edit-form witness. -/
def prizeQ0 : Prize :=
  { prizeA with quantity := 0 }

/-! Helper lemmas. -/

theorem findIdx_id_eq_length_of_not_mem (ps : List Prize) (p : Prize)
    (h : ∀ q ∈ ps, q.id ≠ p.id) :
    ps.findIdx (fun q => q.id == p.id) = ps.length := by
  rw [List.findIdx_eq_length]
  intro q hq
  simpa using h q hq

theorem upsert_of_fresh_id (ps : List Prize) (p : Prize)
    (h : ∀ q ∈ ps, q.id ≠ p.id) :
    upsert ps p = ps ++ [p] := by
  unfold upsert
  rw [findIdx_id_eq_length_of_not_mem ps p h]
  simp

theorem set_append_cons (ps₁ ps₂ : List Prize) (q p : Prize) :
    (ps₁ ++ q :: ps₂).set ps₁.length p = ps₁ ++ p :: ps₂ := by
  induction ps₁ with
  | nil => rfl
  | cons a t ih => simp [List.set, ih]

theorem findIdx_id_append_cons (ps₁ ps₂ : List Prize) (q p : Prize)
    (hq : q.id = p.id) (h1 : ∀ r ∈ ps₁, r.id ≠ p.id) :
    (ps₁ ++ q :: ps₂).findIdx (fun x => x.id == p.id) = ps₁.length := by
  induction ps₁ with
  | nil => simp [List.findIdx_cons, hq]
  | cons a t ih =>
    have ha : (a.id == p.id) = false := by
      simpa using h1 a (List.mem_cons_self a t)
    have ht : ∀ r ∈ t, r.id ≠ p.id := fun r hr => h1 r (List.mem_cons_of_mem a hr)
    simp [List.findIdx_cons, ha, ih ht]

theorem upsert_of_existing_id (ps₁ ps₂ : List Prize) (q p : Prize)
    (hq : q.id = p.id) (h1 : ∀ r ∈ ps₁, r.id ≠ p.id) :
    upsert (ps₁ ++ q :: ps₂) p = ps₁ ++ p :: ps₂ := by
  unfold upsert
  rw [findIdx_id_append_cons ps₁ ps₂ q p hq h1]
  rw [if_pos (by simp)]
  exact set_append_cons ps₁ ps₂ q p

theorem foldl_handleSavePrize_prizes (l : List Prize) :
    ∀ s : AppState, (List.foldl handleSavePrize s l).prizes = List.foldl upsert s.prizes l := by
  induction l with
  | nil => intro s; rfl
  | cons p t ih => intro s; simp [List.foldl_cons, ih, handleSavePrize]

theorem foldl_upsert_distinct (l : List Prize)
    (hl : l.Pairwise (fun a b => a.id ≠ b.id)) :
    List.foldl upsert [] l = l := by
  induction l using List.reverseRecOn with
  | nil => rfl
  | append_singleton t a ih =>
    rw [List.foldl_append]
    have ht := (List.pairwise_append.mp hl).1
    have hna : ∀ q ∈ t, q.id ≠ a.id := by
      intro q hq
      exact (List.pairwise_append.mp hl).2.2 q hq a (by simp)
    calc List.foldl upsert (List.foldl upsert [] t) [a]
        = upsert (List.foldl upsert [] t) a := rfl
      _ = upsert t a := by rw [ih ht]
      _ = t ++ [a] := upsert_of_fresh_id t a hna

/-- C1: handleSavePrize is an upsert.  A record whose id is fresh is
appended at the end; a record whose id already occurs replaces the first
(under unique ids, the unique) occurrence in place, preserving its position;
and any sequence of upserts with pairwise-distinct ids, run from the empty
collection, yields exactly that sequence of records — so the size equals the
number of distinct ids used and each stored record is the last one upserted
for its id. -/
theorem handleSavePrize_upsert_spec :
    (∀ (s : AppState) (p : Prize), (∀ q ∈ s.prizes, q.id ≠ p.id) →
        (handleSavePrize s p).prizes = s.prizes ++ [p]) ∧
    (∀ (s : AppState) (ps₁ ps₂ : List Prize) (q p : Prize),
        s.prizes = ps₁ ++ q :: ps₂ → q.id = p.id → (∀ r ∈ ps₁, r.id ≠ p.id) →
        (handleSavePrize s p).prizes = ps₁ ++ p :: ps₂) ∧
    (∀ (s : AppState) (l : List Prize), s.prizes = [] →
        l.Pairwise (fun a b => a.id ≠ b.id) →
        (List.foldl handleSavePrize s l).prizes = l) := by
  refine ⟨?_, ?_, ?_⟩
  · intro s p h
    simpa [handleSavePrize] using upsert_of_fresh_id s.prizes p h
  · intro s ps₁ ps₂ q p hs hq h1
    simp only [handleSavePrize, hs]
    exact upsert_of_existing_id ps₁ ps₂ q p hq h1
  · intro s l hs hl
    rw [foldl_handleSavePrize_prizes, hs]
    exact foldl_upsert_distinct l hl

/-- Concrete instantiation of handleSavePrize_upsert_spec: appending a fresh
id, replacing an existing id in place, and replaying two distinct-id upserts
from the empty state. -/
theorem handleSavePrize_upsert_spec_witness :
    (handleSavePrize { state0 with prizes := [prizeA] } prizeB).prizes = [prizeA] ++ [prizeB] ∧
    (handleSavePrize { state0 with prizes := [prizeA, prizeB] } prizeA2).prizes = [] ++ prizeA2 :: [prizeB] ∧
    (List.foldl handleSavePrize state0 [prizeA, prizeB]).prizes = [prizeA, prizeB] := by
  refine ⟨?_, ?_, ?_⟩
  · exact handleSavePrize_upsert_spec.1 _ prizeB (by decide)
  · exact handleSavePrize_upsert_spec.2.1 _ [] [prizeB] prizeA prizeA2 rfl (by decide) (by decide)
  · exact handleSavePrize_upsert_spec.2.2 state0 [prizeA, prizeB] rfl (by decide)

/-- C2: every mutation (upsert, confirmed delete, quantity change, wholesale
replace by confirmed import or confirmed clear-all) sets the dirty flag; the
only operation that clears it is a save whose storage write succeeds, which
also commits the snapshot; a save hitting the quota error leaves both the
dirty flag and the stored snapshot exactly as they were (in particular a
dirty state stays dirty), and every declined or failed branch of the other
handlers returns the state untouched. -/
theorem dirty_flag_lifecycle (s : AppState) (p : Prize) (pid : String)
    (q : Int) (elems : List Json) (c : Bool) :
    (handleSavePrize s p).isDirty = true ∧
    (handleDeletePrize s pid true).isDirty = true ∧
    (handleQuantityChange s pid q).isDirty = true ∧
    (handleClearAll s true).isDirty = true ∧
    (handleImport s (Except.ok (Json.arr elems)) true).isDirty = true ∧
    (handleSaveToStorage s false).isDirty = false ∧
    (handleSaveToStorage s false).storage = some s.prizes ∧
    (handleSaveToStorage s true).isDirty = s.isDirty ∧
    (handleSaveToStorage s true).storage = s.storage ∧
    handleDeletePrize s pid false = s ∧
    handleClearAll s false = s ∧
    handleImport s (Except.error ()) c = s :=
  ⟨rfl, rfl, rfl, rfl, rfl, rfl, rfl, rfl, rfl, rfl, rfl, rfl⟩

theorem prizeOfJson_jsonOfPrize (p : Prize) : prizeOfJson (jsonOfPrize p) = p := rfl

/-- C3: importing the document produced by export restores the collection
exactly — every field of every record survives the round trip. -/
theorem export_import_roundtrip (s : AppState) :
    (handleImport s (Except.ok (handleExport s)) true).prizes = s.prizes := by
  simp [handleImport, handleExport, List.map_map, Function.comp_def,
    prizeOfJson_jsonOfPrize]

/-- C4: an import whose content fails to parse, or parses to anything other
than a top-level array, leaves the whole application state (in particular
the collection) untouched. -/
theorem import_malformed_leaves_state (s : AppState) (j : Json) (c₁ c₂ : Bool)
    (hj : ∀ elems, j ≠ Json.arr elems) :
    handleImport s (Except.error ()) c₁ = s ∧
    handleImport s (Except.ok j) c₂ = s := by
  refine ⟨rfl, ?_⟩
  cases j with
  | arr elems => exact absurd rfl (hj elems)
  | null => rfl
  | bool b => rfl
  | num n => rfl
  | str t => rfl
  | obj fields => rfl

/-- Concrete instantiation of import_malformed_leaves_state: a document that
parses to a bare string is rejected and the state is unchanged. -/
theorem import_malformed_leaves_state_witness :
    handleImport state0 (Except.error ()) true = state0 ∧
    handleImport state0 (Except.ok (Json.str ("not an array"))) true = state0 :=
  import_malformed_leaves_state state0 (Json.str ("not an array")) true true
    (fun _ h => Json.noConfusion h)

/-- C5: handleQuantityChange preserves the length and order of the
collection, and rewrites each stored record to one that agrees with it on
id, name, acquisitionDate, category, manufacturer, photo and notes, the
quantity alone being replaced (by the supplied value, negative values
included, on the matching id) and kept intact on every other record. -/
theorem handleQuantityChange_frame (s : AppState) (pid : String) (q : Int) :
    (handleQuantityChange s pid q).prizes.length = s.prizes.length ∧
    (∀ (i : Nat) (p p' : Prize), s.prizes[i]? = some p →
        (handleQuantityChange s pid q).prizes[i]? = some p' →
        p'.id = p.id ∧ p'.name = p.name ∧
        p'.acquisitionDate = p.acquisitionDate ∧ p'.category = p.category ∧
        p'.manufacturer = p.manufacturer ∧ p'.photo = p.photo ∧
        p'.notes = p.notes ∧
        p'.quantity = (if p.id = pid then q else p.quantity)) := by
  constructor
  · simp [handleQuantityChange, setQuantity]
  · intro i p p' hp hp'
    have hmap : (handleQuantityChange s pid q).prizes[i]? =
        (s.prizes[i]?).map (fun r =>
          if r.id == pid then { r with quantity := q } else r) := by
      simp [handleQuantityChange, setQuantity, List.getElem?_map]
    rw [hmap, hp] at hp'
    simp only [Option.map_some', Option.some_inj] at hp'
    by_cases hid : p.id = pid
    · simp only [hid, beq_self_eq_true, if_true] at hp'
      subst hp'
      simp [hid]
    · have : (p.id == pid) = false := by simpa using hid
      simp only [this, Bool.false_eq_true, if_false] at hp'
      subst hp'
      simp [hid]

/-- Concrete instantiation of handleQuantityChange_frame: setting the
quantity of the record with id 1 to the negative value -5 keeps the length
and rewrites the quantity of that record as supplied. -/
theorem handleQuantityChange_frame_witness :
    (handleQuantityChange { state0 with prizes := [prizeA, prizeB] } ("1") (-5)).prizes.length
      = ([prizeA, prizeB] : List Prize).length ∧
    ({ prizeA with quantity := -5 } : Prize).quantity =
      (if prizeA.id = "1" then (-5 : Int) else prizeA.quantity) := by
  constructor
  · exact (handleQuantityChange_frame { state0 with prizes := [prizeA, prizeB] } ("1") (-5)).1
  · exact ((handleQuantityChange_frame { state0 with prizes := [prizeA, prizeB] } ("1") (-5)).2
      0 prizeA ({ prizeA with quantity := -5 }) rfl rfl).2.2.2.2.2.2.2

theorem getKey_setKey_self (acc : List (String × Int)) (k : String) (v : Int) :
    getKey (setKey acc k v) k = some v := by
  induction acc with
  | nil => simp [setKey, getKey]
  | cons e t ih =>
    by_cases h : e.1 = k
    · simp [setKey, getKey, h]
    · have hb : (e.1 == k) = false := by simpa using h
      simp [setKey, getKey, hb, ih]

theorem getKey_setKey_ne (acc : List (String × Int)) (k k' : String) (v : Int)
    (h : k ≠ k') :
    getKey (setKey acc k v) k' = getKey acc k' := by
  have hb : (k == k') = false := by simpa using h
  induction acc with
  | nil => simp [setKey, getKey, hb]
  | cons e t ih =>
    by_cases he : e.1 = k
    · have : (e.1 == k') = false := by simpa using he ▸ h
      simp [setKey, getKey, he, hb, this]
    · have hbe : (e.1 == k) = false := by simpa using he
      simp [setKey, getKey, hbe, ih]

theorem foldl_add_quantity (ps : List Prize) :
    ∀ init : Int, ps.foldl (fun sum p => sum + p.quantity) init
      = init + (ps.map Prize.quantity).sum := by
  induction ps with
  | nil => intro init; simp
  | cons p t ih => intro init; simp [ih]; ring

theorem getD_categoryCount_foldl (ps : List Prize) (cat : String) :
    ∀ acc : List (String × Int),
      (getKey (ps.foldl
          (fun acc p => setKey acc p.category ((getKey acc p.category).getD 0 + p.quantity))
          acc) cat).getD 0
        = (getKey acc cat).getD 0
          + ((ps.filter (fun p => p.category == cat)).map Prize.quantity).sum := by
  induction ps with
  | nil => intro acc; simp
  | cons p t ih =>
    intro acc
    rw [List.foldl_cons, ih]
    by_cases hc : p.category = cat
    · have hb : (p.category == cat) = true := by simpa using hc
      rw [hc, getKey_setKey_self]
      simp [hb]
      ring
    · have hb : (p.category == cat) = false := by simpa using hc
      rw [getKey_setKey_ne _ _ _ _ hc]
      simp [hb]

theorem getKey_categoryCount_none (ps : List Prize) (cat : String) :
    ∀ acc : List (String × Int), getKey acc cat = none →
      (∀ p ∈ ps, p.category ≠ cat) →
      getKey (ps.foldl
          (fun acc p => setKey acc p.category ((getKey acc p.category).getD 0 + p.quantity))
          acc) cat = none := by
  induction ps with
  | nil => intro acc hacc _; simpa using hacc
  | cons p t ih =>
    intro acc hacc hnone
    rw [List.foldl_cons]
    refine ih _ ?_ (fun r hr => hnone r (List.mem_cons_of_mem p hr))
    rw [getKey_setKey_ne _ _ _ _ (hnone p (List.mem_cons_self p t))]
    exact hacc

/-- C6 counterexample: on the empty collection the category マスコット has no
records, yet the stats object carries no entry for it at all — the per
category lookup yields none, not the 0 the claim requires. -/
theorem stats_empty_category_absent :
    getKey (stats []).categoryCount ("マスコット") = none ∧
    getKey (stats []).categoryCount ("マスコット") ≠ some 0 := by
  exact ⟨rfl, by decide⟩

/-- C6 amended: totalTypes is the number of records and totalQuantity the
sum of all quantities (zero on the empty collection); categoryCount maps
each category to the sum of quantities over its records, but a category with
no records is absent from it (its lookup is none) rather than present with
value 0 — the 0 appears only at the rendering site, which reads the entry
through an || 0 default. -/
theorem stats_spec_amended (ps : List Prize) (cat : String) :
    (stats ps).totalTypes = ps.length ∧
    (stats ps).totalQuantity = (ps.map Prize.quantity).sum ∧
    (getKey (stats ps).categoryCount cat).getD 0
      = ((ps.filter (fun p => p.category == cat)).map Prize.quantity).sum ∧
    ((∀ p ∈ ps, p.category ≠ cat) → getKey (stats ps).categoryCount cat = none) ∧
    ((∀ p ∈ ps, p.category ≠ cat) → displayedCategoryCount (stats ps) cat = 0) := by
  refine ⟨rfl, ?_, ?_, ?_, ?_⟩
  · simpa using foldl_add_quantity ps 0
  · simpa [stats, getKey] using getD_categoryCount_foldl ps cat []
  · intro h
    simpa [stats] using getKey_categoryCount_none ps cat [] rfl h
  · intro h
    have hnone : getKey (stats ps).categoryCount cat = none := by
      simpa [stats] using getKey_categoryCount_none ps cat [] rfl h
    simp [displayedCategoryCount, hnone]

/-- Concrete instantiation of stats_spec_amended: a one-record collection in
category マスコット carries no ぬいぐるみ entry, and the rendering default
displays 0 for it. -/
theorem stats_spec_amended_witness :
    (∀ p ∈ [prizeA], p.category ≠ "ぬいぐるみ") ∧
    getKey (stats [prizeA]).categoryCount ("ぬいぐるみ") = none ∧
    displayedCategoryCount (stats [prizeA]) ("ぬいぐるみ") = 0 :=
  ⟨by decide, (stats_spec_amended [prizeA] ("ぬいぐるみ")).2.2.2.1 (by decide),
    (stats_spec_amended [prizeA] ("ぬいぐるみ")).2.2.2.2 (by decide)⟩

theorem resizeDims_unchanged (w h : ℚ) (hw : w ≤ 600) (hh : h ≤ 600) :
    resizeDims w h = (w, h) := by
  unfold resizeDims
  split_ifs with h1 h2 h3
  · exact absurd h2 (by linarith)
  · rfl
  · exact absurd h3 (by linarith)
  · rfl

theorem resizeDims_max_eq (w h : ℚ) (hmax : 600 < max w h) :
    max (resizeDims w h).1 (resizeDims w h).2 = 600 := by
  unfold resizeDims
  split_ifs with h1 h2 h3
  · have hw : (0 : ℚ) < w := by linarith
    have hd : (0 : ℚ) < 600 / w := by positivity
    have key : 600 / w * w = 600 := by field_simp
    have hle : h * (600 / w) ≤ 600 := by
      nlinarith [mul_pos hd (sub_pos.mpr h1)]
    simp [max_eq_left hle]
  · exact absurd (by simpa [max_eq_left (le_of_lt h1)] using hmax) (not_lt.mpr (le_of_not_lt h2))
  · have hh : (0 : ℚ) < h := by linarith
    have hd : (0 : ℚ) < 600 / h := by positivity
    have key : 600 / h * h = 600 := by field_simp
    have hle : w * (600 / h) ≤ 600 := by
      nlinarith [mul_nonneg (le_of_lt hd) (sub_nonneg.mpr (le_of_not_lt h1))]
    simp [max_eq_right hle]
  · rw [not_lt] at h1 h3
    exact absurd hmax (not_lt.mpr (by simp [max_le_iff]; constructor <;> linarith))

theorem floor_six_hundred : Int.floor ((600 : ℚ)) = 600 := by
  exact_mod_cast Int.floor_intCast (α := ℚ) 600

/-- C7 counterexample: a 1000 by 333 input is scaled to the fractional
height 999/5 = 199.8, which the canvas assignment truncates to 199, so the
program outputs 600 by 199 — and 199 * 1000 ≠ 600 * 333, so the aspect
ratio of the output is not preserved exactly, refuting the claim as
stated. -/
theorem resize_canvas_aspect_counterexample :
    resizeDims 1000 333 = (600, 999 / 5) ∧
    canvasDims 1000 333 = (600, 199) ∧
    ¬ ((canvasDims 1000 333).2 * 1000 = (canvasDims 1000 333).1 * 333) := by
  have h1 : resizeDims 1000 333 = (600, 999 / 5) := by norm_num [resizeDims]
  have h2 : canvasDims 1000 333 = (600, 199) := by
    unfold canvasDims
    rw [h1]
    have hfb : Int.floor ((999 / 5 : ℚ)) = 199 := by
      rw [Int.floor_eq_iff]
      norm_num
    simp [floor_six_hundred, hfb]
  refine ⟨h1, h2, ?_⟩
  rw [h2]
  decide

/-- C7 amended: for integer pixel inputs, an image already within the 600 by
600 box keeps both canvas dimensions unchanged; otherwise the longer canvas
side is exactly 600 while the other is the proportionally scaled value
truncated to an integer by the canvas assignment — each canvas side lies
within one unit below the computed value, so the aspect ratio is preserved
only approximately, not exactly; the scenarios 1200 by 800 giving 600 by 400
and 300 by 200 staying unchanged are exact. -/
theorem resizeDims_canvas_spec (w h : ℕ) :
    (w ≤ 600 → h ≤ 600 → canvasDims w h = ((w : ℤ), (h : ℤ))) ∧
    (600 < max w h → max (canvasDims w h).1 (canvasDims w h).2 = 600) ∧
    ((canvasDims (w : ℚ) (h : ℚ)).1 : ℚ) ≤ (resizeDims w h).1 ∧
    (resizeDims (w : ℚ) (h : ℚ)).1 - 1 < ((canvasDims w h).1 : ℚ) ∧
    ((canvasDims (w : ℚ) (h : ℚ)).2 : ℚ) ≤ (resizeDims w h).2 ∧
    (resizeDims (w : ℚ) (h : ℚ)).2 - 1 < ((canvasDims w h).2 : ℚ) ∧
    canvasDims 1200 800 = (600, 400) ∧
    canvasDims 300 200 = (300, 200) := by
  refine ⟨?_, ?_, ?_, ?_, ?_, ?_, ?_, ?_⟩
  · intro hw hh
    unfold canvasDims
    rw [resizeDims_unchanged (w : ℚ) (h : ℚ) (by exact_mod_cast hw) (by exact_mod_cast hh)]
    simp
  · intro hmax
    have hmaxq : (600 : ℚ) < max (w : ℚ) (h : ℚ) := by
      rw [← Nat.cast_max]
      exact_mod_cast hmax
    have h600 := resizeDims_max_eq (w : ℚ) (h : ℚ) hmaxq
    unfold canvasDims
    calc max (Int.floor (resizeDims (w : ℚ) (h : ℚ)).1)
          (Int.floor (resizeDims (w : ℚ) (h : ℚ)).2)
        = Int.floor (max (resizeDims (w : ℚ) (h : ℚ)).1 (resizeDims (w : ℚ) (h : ℚ)).2) :=
          (Monotone.map_max Int.floor_mono).symm
      _ = Int.floor ((600 : ℚ)) := by rw [h600]
      _ = 600 := floor_six_hundred
  · exact Int.floor_le (resizeDims (w : ℚ) (h : ℚ)).1
  · exact Int.sub_one_lt_floor (resizeDims (w : ℚ) (h : ℚ)).1
  · exact Int.floor_le (resizeDims (w : ℚ) (h : ℚ)).2
  · exact Int.sub_one_lt_floor (resizeDims (w : ℚ) (h : ℚ)).2
  · have h1 : resizeDims 1200 800 = (600, 400) := by norm_num [resizeDims]
    unfold canvasDims
    rw [h1]
    have hfb : Int.floor ((400 : ℚ)) = 400 := by
      exact_mod_cast Int.floor_intCast (α := ℚ) 400
    simp [floor_six_hundred, hfb]
  · have h1 : resizeDims 300 200 = (300, 200) :=
      resizeDims_unchanged 300 200 (by norm_num) (by norm_num)
    unfold canvasDims
    rw [h1]
    have hfa : Int.floor ((300 : ℚ)) = 300 := by
      exact_mod_cast Int.floor_intCast (α := ℚ) 300
    have hfb : Int.floor ((200 : ℚ)) = 200 := by
      exact_mod_cast Int.floor_intCast (α := ℚ) 200
    simp [hfa, hfb]

/-- Concrete instantiation of resizeDims_canvas_spec: an image already
within the 600 by 600 box keeps its canvas dimensions. -/
theorem resizeDims_canvas_spec_witness :
    canvasDims 300 200 = (300, 200) := by
  have h := (resizeDims_canvas_spec 300 200).1 (by norm_num) (by norm_num)
  simpa using h

/-- C8 (showing the claim fails on the code): when the image decode fails,
the promise of resizeImage — whose only resolution site is the onload callback,
with no onerror handler and no reject — never settles, so handlePhotoChange
never reaches its catch fallback or its finally clause: the photo is NOT
set to the original input, isProcessingImage remains stuck at true, and
handleSubmit is blocked forever on this form (record creation is blocked by
the photo failure, contrary to the claim). -/
theorem handlePhotoChange_decode_failure_blocks (s : FormState)
    (encode : ℚ → ℚ → String) (base64 : String) (prizeToEdit : Option Prize)
    (newId : String) :
    resizeImage encode DecodeOutcome.failed = none ∧
    (handlePhotoChange s encode base64 DecodeOutcome.failed).isProcessingImage = true ∧
    (handlePhotoChange s encode base64 DecodeOutcome.failed).photo = s.photo ∧
    handleSubmit (handlePhotoChange s encode base64 DecodeOutcome.failed)
      prizeToEdit newId = none := by
  refine ⟨rfl, rfl, rfl, ?_⟩
  simp [handleSubmit, handlePhotoChange, resizeImage]

/-- C10: opening the edit form replaces every falsy stored field by its
default — quantity 0 becomes 1, an empty acquisition date becomes today, an
empty category becomes その他, an empty manufacturer becomes 指定なし — and
consequently submitting the form untouched for a record stored with
quantity 0 saves it back with quantity 1. -/
theorem editForm_falsy_defaults (p : Prize) (today newId : String)
    (hname : p.name.trim ≠ "") (hq : p.quantity = 0) :
    (initFormState (some p) today).quantity = (if p.quantity = 0 then 1 else p.quantity) ∧
    (initFormState (some p) today).acquisitionDate
      = (if p.acquisitionDate = "" then today else p.acquisitionDate) ∧
    (initFormState (some p) today).category
      = (if p.category = "" then ("その他") else p.category) ∧
    (initFormState (some p) today).manufacturer
      = (if p.manufacturer = "" then ("指定なし") else p.manufacturer) ∧
    (handleSubmit (initFormState (some p) today) (some p) newId).map Prize.quantity
      = some 1 := by
  have hn : jsOrS p.name ("") = p.name := by
    unfold jsOrS
    split_ifs with h
    · exact h.symm
    · rfl
  refine ⟨rfl, rfl, rfl, rfl, ?_⟩
  simp only [handleSubmit, initFormState, hn]
  rw [if_neg (by simpa using hname)]
  simp [jsOrI, hq]

theorem trim_single_A : ("A").trim = "A" := by
  show (Substring.trim ⟨"A", 0, "A".endPos⟩).toString = "A"
  rw [Substring.trim]
  rw [Substring.takeWhileAux.eq_def]
  rw [dif_pos (by decide : (0 : String.Pos) < "A".endPos)]
  rw [if_neg (by decide : ¬(("A".get 0).isWhitespace = true))]
  rw [Substring.takeRightWhileAux.eq_def]
  rw [dif_pos (by decide : (0 : String.Pos) < "A".endPos)]
  rw [if_pos (by decide : (!("A".get ("A".prev "A".endPos)).isWhitespace) = true)]
  decide

theorem prizeQ0_name_trim : prizeQ0.name.trim ≠ "" := by
  rw [show prizeQ0.name = ("A") from rfl, trim_single_A]
  decide

/-- Concrete instantiation of editForm_falsy_defaults: a stored record with
quantity 0 comes back from an untouched edit-form submission with
quantity 1. -/
theorem editForm_falsy_defaults_witness :
    (prizeQ0.name.trim ≠ "" ∧ prizeQ0.quantity = 0) ∧
    (handleSubmit (initFormState (some prizeQ0) ("2026-10-12")) (some prizeQ0)
        ("1760227200000")).map Prize.quantity = some 1 :=
  ⟨⟨prizeQ0_name_trim, by decide⟩,
    (editForm_falsy_defaults prizeQ0 ("2026-10-12") ("1760227200000")
      prizeQ0_name_trim (by decide)).2.2.2.2⟩

theorem sortJS_asc_reverse_desc {α : Type} (cmp : α → α → Int) (l : List α)
    (hsgn : ∀ a b, cmp a b < 0 ↔ 0 < cmp b a)
    (htrans : ∀ a b c, cmp a b ≤ 0 → cmp b c ≤ 0 → cmp a c ≤ 0)
    (hties : l.Pairwise (fun a b => cmp a b ≠ 0)) :
    sortJS cmp l = (sortJS (fun a b => cmp b a) l).reverse := by
  haveI hto : IsTotal α (fun a b => cmp a b ≤ 0) := ⟨fun a b => by
    rcases le_or_lt (cmp a b) 0 with h | h
    · exact Or.inl h
    · exact Or.inr (le_of_lt ((hsgn b a).mpr h))⟩
  haveI htr : IsTrans α (fun a b => cmp a b ≤ 0) := ⟨htrans⟩
  haveI hto2 : IsTotal α (fun a b => cmp b a ≤ 0) := ⟨fun a b => (hto.total b a)⟩
  haveI htr2 : IsTrans α (fun a b => cmp b a ≤ 0) :=
    ⟨fun a b c h1 h2 => htrans c b a h2 h1⟩
  have hperm_asc : (sortJS cmp l).Perm l := List.perm_insertionSort _ l
  have hperm_desc : (sortJS (fun a b => cmp b a) l).Perm l :=
    List.perm_insertionSort _ l
  have hsorted_asc : (sortJS cmp l).Sorted (fun a b => cmp a b ≤ 0) :=
    List.sorted_insertionSort _ l
  have hsorted_desc : (sortJS (fun a b => cmp b a) l).Sorted (fun a b => cmp b a ≤ 0) :=
    List.sorted_insertionSort _ l
  have hsorted_rev : ((sortJS (fun a b => cmp b a) l).reverse).Sorted
      (fun a b => cmp a b ≤ 0) :=
    List.pairwise_reverse.mpr hsorted_desc
  have hsymm : ∀ {x y : α}, cmp x y ≠ 0 → cmp y x ≠ 0 := by
    intro x y hxy hyx0
    have h1 := hsgn x y
    have h2 := hsgn y x
    omega
  have hties_asc : (sortJS cmp l).Pairwise (fun a b => cmp a b ≠ 0) :=
    (List.Perm.pairwise_iff hsymm hperm_asc).mpr hties
  have hties_rev : ((sortJS (fun a b => cmp b a) l).reverse).Pairwise
      (fun a b => cmp a b ≠ 0) := by
    have hperm : ((sortJS (fun a b => cmp b a) l).reverse).Perm l :=
      (List.reverse_perm _).trans hperm_desc
    exact (List.Perm.pairwise_iff hsymm hperm).mpr hties
  have hstrict_asc : (sortJS cmp l).Pairwise (fun a b => cmp a b < 0) :=
    (hsorted_asc.and hties_asc).imp (fun h => lt_of_le_of_ne h.1 h.2)
  have hstrict_rev : ((sortJS (fun a b => cmp b a) l).reverse).Pairwise
      (fun a b => cmp a b < 0) :=
    (hsorted_rev.and hties_rev).imp (fun h => lt_of_le_of_ne h.1 h.2)
  haveI hanti : IsAntisymm α (fun a b => cmp a b < 0) :=
    ⟨fun a b hab hba => absurd ((hsgn a b).mp hab) (by omega)⟩
  have hperm2 : (sortJS cmp l).Perm ((sortJS (fun a b => cmp b a) l).reverse) :=
    hperm_asc.trans ((List.reverse_perm _).trans hperm_desc).symm
  exact List.eq_of_perm_of_sorted hperm2 hstrict_asc hstrict_rev

/-- C9: with the locale comparison behaving as a consistent comparator (sign
antisymmetric and transitive on the non-positive side, as the ECMA-402
collation contract guarantees) and no two records of the collection having
names that compare equal, sorting the same filtered input by name ascending
and by name descending yields exactly reversed orderings. -/
theorem filteredSort_nameAsc_reverse_nameDesc
    (localeCmp : String → String → Int) (dateMs : String → Int)
    (prizes : List Prize) (searchTerm selectedCategory : String)
    (hsgn : ∀ a b, localeCmp a b < 0 ↔ 0 < localeCmp b a)
    (htrans : ∀ a b c, localeCmp a b ≤ 0 → localeCmp b c ≤ 0 → localeCmp a c ≤ 0)
    (hnoties : prizes.Pairwise (fun a b => localeCmp a.name b.name ≠ 0)) :
    filteredAndSortedPrizes localeCmp dateMs prizes searchTerm selectedCategory
        SortOrder.nameAsc
      = (filteredAndSortedPrizes localeCmp dateMs prizes searchTerm
          selectedCategory SortOrder.nameDesc).reverse := by
  have hsub : (filterPrizes prizes searchTerm selectedCategory).Sublist prizes :=
    List.filter_sublist prizes
  have hties : (filterPrizes prizes searchTerm selectedCategory).Pairwise
      (fun a b => localeCmp a.name b.name ≠ 0) :=
    List.Pairwise.sublist hsub hnoties
  simpa [filteredAndSortedPrizes] using
    sortJS_asc_reverse_desc (fun a b : Prize => localeCmp a.name b.name)
      (filterPrizes prizes searchTerm selectedCategory)
      (fun a b => hsgn a.name b.name)
      (fun a b c => htrans a.name b.name c.name)
      hties

/-- Concrete instantiation of filteredSort_nameAsc_reverse_nameDesc with the
length-difference comparator (which satisfies the comparator contract) on a
two-record collection with names of distinct lengths. -/
theorem filteredSort_nameAsc_reverse_nameDesc_witness :
    filteredAndSortedPrizes (fun a b => (a.length : Int) - (b.length : Int))
        (fun _ => 0) [prizeA, prizeB] ("") ("すべて") SortOrder.nameAsc
      = (filteredAndSortedPrizes (fun a b => (a.length : Int) - (b.length : Int))
          (fun _ => 0) [prizeA, prizeB] ("") ("すべて") SortOrder.nameDesc).reverse :=
  filteredSort_nameAsc_reverse_nameDesc
    (fun a b => (a.length : Int) - (b.length : Int)) (fun _ => 0)
    [prizeA, prizeB] ("") ("すべて")
    (fun a b => by
      show (a.length : Int) - b.length < 0 ↔ 0 < (b.length : Int) - a.length
      omega)
    (fun a b c => by
      show (a.length : Int) - b.length ≤ 0 → (b.length : Int) - c.length ≤ 0 →
        (a.length : Int) - c.length ≤ 0
      intro h1 h2
      omega)
    (by decide)
